import Mathlib

/-!
Verification development for the `db_clickhouse` vector-similarity-search
repository.  Vector components and distances are modelled over `ℚ` (exact
rationals standing for the Python floats), except that the Euclidean metric of
`search_1.py` returns a real number because the source applies `np.sqrt`.
Fallible Python code (numpy broadcasting errors, `raise ValueError`) is
modelled with `Except String`.
-/

namespace Np

/-- Elementwise subtraction of two 1-D numpy arrays, with numpy's 1-D
broadcasting rule: equal lengths subtract pointwise; a length-1 operand is
broadcast against the other; otherwise numpy raises an (untyped) ValueError. -/
def sub (a b : List ℚ) : Except String (List ℚ) :=
  if a.length = b.length then Except.ok (List.zipWith (fun x y => x - y) a b)
  else if a.length = 1 then Except.ok (b.map (fun y => a.headD 0 - y))
  else if b.length = 1 then Except.ok (a.map (fun x => x - b.headD 0))
  else Except.error "operands could not be broadcast together"

/-- Sum of squares of the entries of an array, as in `np.sum(d ** 2)`. -/
def sumSq (d : List ℚ) : ℚ := (d.map (fun x => x * x)).sum

end Np

namespace Search1

/-- Sequence a list of fallible computations, stopping at the first error,
as a Python `for` loop over fallible bodies does (`search_1.py` builds its
similarity lists inside such loops, and a raised exception aborts the loop). -/
def mapExcept (f : α → Except String β) : List α → Except String (List β)
  | [] => Except.ok []
  | x :: xs =>
    match f x with
    | Except.error e => Except.error e
    | Except.ok y => (mapExcept f xs).map (fun ys => y :: ys)

/-- Python list slicing `l[:c]` for an integer `c`: a nonnegative stop takes a
prefix; a negative stop drops `|c|` elements from the end (empty list when
`|c| ≥ length`). Used by `sorted_similarities[:count]` in `search_1.py`. -/
def pySlice (l : List α) (c : ℤ) : List α :=
  if 0 ≤ c then l.take c.toNat else l.take (l.length - (-c).toNat)

/-- `VectorSearcher.euclidean_distance` of `search_1.py`:
`np.sqrt(np.sum((a - b) ** 2))`, including numpy's broadcasting behaviour on
the subtraction. -/
noncomputable def euclidean_distance (a b : List ℚ) : Except String ℝ :=
  (Np.sub a b).map (fun d => Real.sqrt ((Np.sumSq d : ℚ) : ℝ))

/-- Comparison used by `sorted(similarities, key=lambda x: x[1])`: compare the
distance component only. -/
def distLe (a b : String × ℝ) : Prop := a.2 ≤ b.2

noncomputable instance : DecidableRel distLe :=
  fun a b => Real.decidableLE a.2 b.2

instance : IsTotal (String × ℝ) distLe := ⟨fun a b => le_total a.2 b.2⟩

instance : IsTrans (String × ℝ) distLe := ⟨fun _ _ _ h1 h2 => le_trans h1 h2⟩

/-- The similarity list one query produces in `search_1.py`: one
`(doc_id, euclidean_distance(input_vector, vector))` pair per stored record,
in store enumeration order (Python dict preserves insertion order). -/
noncomputable def simList (vectors_index : List (String × List ℚ)) (q : List ℚ) :
    Except String (List (String × ℝ)) :=
  mapExcept (fun r => (euclidean_distance q r.2).map (fun d => (r.1, d))) vectors_index

/-- `VectorSearcher.search_similar` of `search_1.py`.  The store is the
insertion-ordered dict of document ids to vectors; the result maps each input
vector's index to the `count`-slice of the distance-sorted similarity list.
Python's `sorted` is a stable sort keyed on the distance, modelled by
`List.insertionSort` on `distLe` (also stable). -/
noncomputable def search_similar (vectors_index : List (String × List ℚ))
    (input_vectors : List (List ℚ)) (count : ℤ) :
    Except String (List (ℕ × List (String × ℝ))) :=
  if vectors_index = [] then Except.ok []
  else
    mapExcept
      (fun p =>
        (simList vectors_index p.2).map
          (fun sims => (p.1, pySlice (List.insertionSort distLe sims) count)))
      input_vectors.enum

end Search1

namespace Search2

/-- `VectorSearcher.__init__` of `search_2.py` (and of
`search_Faiss_IndexIVFFlat.py`): an empty vector index raises
`ValueError("Vector index is empty.")`; otherwise the constructor records the
document-id array and the vector matrix (the FAISS index object built from
them lives in the external `faiss` library and is not modelled). -/
def init (vectors_index : List (String × List ℚ)) :
    Except String (List String × List (List ℚ)) :=
  if vectors_index = [] then Except.error "Vector index is empty."
  else Except.ok (vectors_index.map Prod.fst, vectors_index.map Prod.snd)

end Search2

namespace SpecIVF

/-- Modelled from the spec: ordering of `(identifier, distance)` pairs for a
`SearchResult` (§3): ascending distance, exact ties broken by the identifier's
natural (lexical) ordering.  The FAISS library code that realises the
clustered index in `search_Faiss_IndexIVFFlat.py` is external, so the spec's
§4.2/§4.3 search algorithms are modelled here directly. -/
def pairLe (a b : String × ℚ) : Prop :=
  a.2 < b.2 ∨ (a.2 = b.2 ∧ a.1 ≤ b.1)

instance : DecidableRel pairLe :=
  fun a b => inferInstanceAs (Decidable (a.2 < b.2 ∨ (a.2 = b.2 ∧ a.1 ≤ b.1)))

instance : IsTotal (String × ℚ) pairLe where
  total a b := by
    rcases lt_trichotomy a.2 b.2 with h | h | h
    · exact Or.inl (Or.inl h)
    · rcases le_total a.1 b.1 with h1 | h1
      · exact Or.inl (Or.inr ⟨h, h1⟩)
      · exact Or.inr (Or.inr ⟨h.symm, h1⟩)
    · exact Or.inr (Or.inl h)

instance : IsTrans (String × ℚ) pairLe where
  trans a b c hab hbc := by
    rcases hab with h1 | ⟨h1, h1'⟩
    · rcases hbc with h2 | ⟨h2, _⟩
      · exact Or.inl (lt_trans h1 h2)
      · exact Or.inl (h2 ▸ h1)
    · rcases hbc with h2 | ⟨h2, h2'⟩
      · exact Or.inl (h1 ▸ h2)
      · exact Or.inr ⟨h1.trans h2, le_trans h1' h2'⟩

instance : IsAntisymm (String × ℚ) pairLe where
  antisymm a b hab hba := by
    rcases hab with h1 | ⟨h1, h1'⟩
    · rcases hba with h2 | ⟨h2, _⟩
      · exact absurd (lt_trans h1 h2) (lt_irrefl _)
      · exact absurd h1 (h2 ▸ lt_irrefl _)
    · rcases hba with h2 | ⟨h2, h2'⟩
      · exact absurd h2 (h1 ▸ lt_irrefl _)
      · exact Prod.ext (le_antisymm h1' h2') h1

/-- Modelled from the spec: the full ranking of the store for one query
(§4.2): every stored record paired with its distance to the query, sorted by
`pairLe`. -/
def rankAll (dist : List ℚ → List ℚ → ℚ) (store : List (String × List ℚ))
    (q : List ℚ) : List (String × ℚ) :=
  List.insertionSort pairLe (store.map (fun r => (r.1, dist r.2 q)))

/-- Modelled from the spec: `ExactSearcher.search` (§4.2): the `k` smallest
entries of the full ranking. -/
def exactSearch (dist : List ℚ → List ℚ → ℚ) (store : List (String × List ℚ))
    (q : List ℚ) (k : ℕ) : List (String × ℚ) :=
  (rankAll dist store q).take k

/-- Modelled from the spec: ordering of cluster indices by distance of their
centroid to a vector, ties broken by lowest cluster index (§4.3). -/
def centroidLe (dist : List ℚ → List ℚ → ℚ) (centroids : List (List ℚ))
    (v : List ℚ) (i j : ℕ) : Prop :=
  dist (centroids.getD i []) v < dist (centroids.getD j []) v ∨
    (dist (centroids.getD i []) v = dist (centroids.getD j []) v ∧ i ≤ j)

instance (dist : List ℚ → List ℚ → ℚ) (centroids : List (List ℚ)) (v : List ℚ) :
    DecidableRel (centroidLe dist centroids v) :=
  fun i j =>
    inferInstanceAs
      (Decidable
        (dist (centroids.getD i []) v < dist (centroids.getD j []) v ∨
          (dist (centroids.getD i []) v = dist (centroids.getD j []) v ∧ i ≤ j)))

/-- Modelled from the spec: all cluster indices ordered from nearest to
farthest centroid for a vector (§4.3). -/
def centroidRank (dist : List ℚ → List ℚ → ℚ) (centroids : List (List ℚ))
    (v : List ℚ) : List ℕ :=
  List.insertionSort (centroidLe dist centroids v) (List.range centroids.length)

/-- Modelled from the spec: cluster assignment (§3, Cluster invariant): each
vector belongs to the cluster whose centroid is nearest, ties broken by lowest
cluster index. -/
def assign (dist : List ℚ → List ℚ → ℚ) (centroids : List (List ℚ))
    (v : List ℚ) : ℕ :=
  (centroidRank dist centroids v).headD 0

/-- Modelled from the spec: `ApproximateIndex.search` (§4.3): pick the
`numProbe` nearest clusters (`(centroidRank ...).take numProbe`), gather the
records assigned to them (the `flatMap` of the per-cluster member filters),
and select the top `k` of that candidate set exactly as the exact searcher
does. -/
def ivfSearch (dist : List ℚ → List ℚ → ℚ) (centroids : List (List ℚ))
    (numProbe : ℕ) (store : List (String × List ℚ)) (q : List ℚ) (k : ℕ) :
    List (String × ℚ) :=
  (List.insertionSort pairLe
      ((((centroidRank dist centroids q).take numProbe).flatMap
            (fun i => store.filter (fun r => assign dist centroids r.2 = i))).map
        (fun r => (r.1, dist r.2 q)))).take k

/-- Squared Euclidean distance on equal-length rational vectors, a concrete
instance of the metrics the spec-modelled searchers are parameterized by. -/
def sqDist (a b : List ℚ) : ℚ := Np.sumSq (List.zipWith (fun x y => x - y) a b)

end SpecIVF

namespace Generation

/-- One generated element of `generation.py`: a dict with an `id` and a
`vector`. -/
structure Element where
  id : String
  vector : List ℚ
  deriving Repr, DecidableEq

/-- `np.random.uniform(low, high, size)` drawing its unit samples from the
stream `rand` starting at offset `base`: a length-`size` array of values
`low + (high - low) * sample`. -/
def npUniform (low high : ℚ) (size : ℕ) (rand : ℕ → ℚ) (base : ℕ) : List ℚ :=
  (List.range size).map (fun i => low + (high - low) * rand (base + i))

/-- The `while True` retry loop of `VectorGenerator.generate`: keep drawing
uuids from the stream until one is not in the existing set.  The unbounded
Python loop is modelled as a search over the next `used.length + 1` draws,
which always finds the same first fresh draw whenever the stream is
injective (a finite set cannot absorb `used.length + 1` distinct draws). -/
def pickFresh (uuids : ℕ → String) (used : List String) (s : ℕ) : ℕ :=
  match (List.range (used.length + 1)).find? (fun m => decide (uuids (s + m) ∉ used)) with
  | some m => s + m
  | none => s

/-- The generation loop of `VectorGenerator.generate`: `count` iterations,
each drawing a fresh uuid (retrying on collision against the accumulated set)
and a fresh random vector.  `s` is the position in the uuid stream and `used`
the set of uuids drawn so far. -/
def generateAux (uuids : ℕ → String) (rand : ℕ → ℚ) (low high : ℚ) (size : ℕ) :
    ℕ → ℕ → List String → List Element
  | 0, _, _ => []
  | Nat.succ c, s, used =>
    { id := uuids (pickFresh uuids used s),
      vector := npUniform low high size rand (pickFresh uuids used s) } ::
      generateAux uuids rand low high size c (pickFresh uuids used s + 1)
        (uuids (pickFresh uuids used s) :: used)

/-- `VectorGenerator.generate` of `generation.py`, with the uuid4 and
`np.random` randomness supplied as oracle streams. -/
def generate (uuids : ℕ → String) (rand : ℕ → ℚ) (low high : ℚ) (size count : ℕ) :
    List Element :=
  generateAux uuids rand low high size count 0 []

end Generation

namespace Bench

/-- The measurement loop of `test.py`'s `__main__`: for each of the `n` runs,
`measure_memory_and_time` yields an (elapsed time, peak memory) pair, modelled
by the oracle `measure`; the loop appends the time to one list and the memory
to another. -/
def runSamples (measure : ℕ → ℚ × ℚ) (n : ℕ) : List ℚ × List ℚ :=
  ((List.range n).map (fun i => (measure i).1),
    (List.range n).map (fun i => (measure i).2))

/-- The aggregation of `test.py`: `sum(samples) / len(samples)`. -/
def average (xs : List ℚ) : ℚ := xs.sum / xs.length

end Bench

section HelperLemmas

open List

theorem flatMap_congr_mem {A : Type} {L : List ℕ} {f g : ℕ → List A}
    (h : ∀ i ∈ L, f i = g i) : L.flatMap f = L.flatMap g := by
  induction L with
  | nil => rfl
  | cons j t ih =>
    simp only [List.flatMap_cons]
    rw [h j (by simp), ih (fun i hi => h i (by simp [hi]))]

theorem flatMap_insert_perm {A : Type} (x : A) (g : ℕ → List A) (i0 : ℕ) :
    ∀ L : List ℕ, i0 ∈ L → L.Nodup →
      (L.flatMap (fun i => if i0 = i then x :: g i else g i)).Perm (x :: L.flatMap g)
  | [], h, _ => absurd h (List.not_mem_nil i0)
  | j :: t, h, hd => by
    rcases List.nodup_cons.mp hd with ⟨hjt, hdt⟩
    rcases List.mem_cons.mp h with h1 | h1
    · have ht : t.flatMap (fun i => if i0 = i then x :: g i else g i) = t.flatMap g := by
        refine flatMap_congr_mem (fun i hi => if_neg (fun e => ?_))
        exact hjt (by rw [h1] at e; rw [e]; exact hi)
      simp only [List.flatMap_cons, ht, if_pos h1]
      exact List.Perm.refl _
    · have hne : i0 ≠ j := fun e => hjt (e ▸ h1)
      simp only [List.flatMap_cons, if_neg hne]
      refine ((flatMap_insert_perm x g i0 t h1 hdt).append_left (g j)).trans ?_
      exact List.perm_middle

theorem flatMap_filter_partition {A : Type} (f : A → ℕ) (n : ℕ) :
    ∀ l : List A, (∀ a ∈ l, f a < n) →
      ((List.range n).flatMap (fun i => l.filter (fun a => f a = i))).Perm l
  | [], _ => by simp
  | a :: t, h => by
    have hfa : f a ∈ List.range n := List.mem_range.mpr (h a (by simp))
    have step : ∀ i : ℕ, (a :: t).filter (fun x => f x = i) =
        if f a = i then a :: t.filter (fun x => f x = i)
        else t.filter (fun x => f x = i) := by
      intro i
      rw [List.filter_cons]
      by_cases hc : f a = i
      · simp [hc]
      · simp [hc]
    rw [flatMap_congr_mem (fun i _ => step i)]
    refine (flatMap_insert_perm a _ (f a) _ hfa (List.nodup_range n)).trans ?_
    exact (flatMap_filter_partition f n t (fun b hb => h b (by simp [hb]))).cons a

theorem perm_flatMap {A : Type} (g : ℕ → List A) {l₁ l₂ : List ℕ} (h : l₁.Perm l₂) :
    (l₁.flatMap g).Perm (l₂.flatMap g) := by
  induction h with
  | nil => exact List.Perm.refl _
  | cons a _ ih => simpa only [List.flatMap_cons] using ih.append_left (g a)
  | swap a b l =>
    simp only [List.flatMap_cons]
    rw [← List.append_assoc, ← List.append_assoc]
    exact List.perm_append_comm.append_right _
  | trans _ _ ih1 ih2 => exact ih1.trans ih2

theorem centroidRank_perm (dist : List ℚ → List ℚ → ℚ) (centroids : List (List ℚ))
    (v : List ℚ) :
    (SpecIVF.centroidRank dist centroids v).Perm (List.range centroids.length) :=
  List.perm_insertionSort _ _

theorem centroidRank_length (dist : List ℚ → List ℚ → ℚ) (centroids : List (List ℚ))
    (v : List ℚ) :
    (SpecIVF.centroidRank dist centroids v).length = centroids.length :=
  (centroidRank_perm dist centroids v).length_eq.trans (List.length_range _)

theorem assign_lt (dist : List ℚ → List ℚ → ℚ) (centroids : List (List ℚ))
    (hc : centroids ≠ []) (v : List ℚ) :
    SpecIVF.assign dist centroids v < centroids.length := by
  have hp := centroidRank_perm dist centroids v
  have hlen := centroidRank_length dist centroids v
  have hne : SpecIVF.centroidRank dist centroids v ≠ [] := by
    intro hnil
    rw [hnil] at hlen
    exact hc (List.length_eq_zero.mp hlen.symm)
  have hmem : (SpecIVF.centroidRank dist centroids v).headD 0 ∈
      SpecIVF.centroidRank dist centroids v := by
    cases hcr : SpecIVF.centroidRank dist centroids v with
    | nil => exact absurd hcr hne
    | cons a t => simp
  exact List.mem_range.mp (hp.subset hmem)

end HelperLemmas

/-- C1: for every metric, centroid list, store, query and `k`, searching the
spec-modelled clustered (IVF) index with `num_probe` equal to the number of
clusters returns a result identical — same `(identifier, distance)` pairs, in
the same order, with the same tie-breaking — to the spec-modelled exact
linear-scan searcher's result for the same query and `k`. -/
theorem ivf_full_probe_eq_exact (dist : List ℚ → List ℚ → ℚ)
    (centroids : List (List ℚ)) (store : List (String × List ℚ)) (q : List ℚ)
    (k : ℕ) (hc : centroids ≠ []) :
    SpecIVF.ivfSearch dist centroids centroids.length store q k =
      SpecIVF.exactSearch dist store q k := by
  unfold SpecIVF.ivfSearch SpecIVF.exactSearch SpecIVF.rankAll
  have hprobes : ((SpecIVF.centroidRank dist centroids q).take centroids.length).Perm
      (List.range centroids.length) := by
    rw [List.take_of_length_le (le_of_eq (centroidRank_length dist centroids q))]
    exact centroidRank_perm dist centroids q
  have hcand :
      (((SpecIVF.centroidRank dist centroids q).take centroids.length).flatMap
          (fun i => store.filter (fun r => SpecIVF.assign dist centroids r.2 = i))).Perm
        store :=
    (perm_flatMap _ hprobes).trans
      (flatMap_filter_partition _ centroids.length store
        (fun r _ => assign_lt dist centroids hc r.2))
  have hperm :
      (List.insertionSort SpecIVF.pairLe
          ((((SpecIVF.centroidRank dist centroids q).take centroids.length).flatMap
                (fun i => store.filter (fun r => SpecIVF.assign dist centroids r.2 = i))).map
            (fun r => (r.1, dist r.2 q)))).Perm
        (List.insertionSort SpecIVF.pairLe (store.map (fun r => (r.1, dist r.2 q)))) :=
    (List.perm_insertionSort _ _).trans
      ((hcand.map _).trans (List.perm_insertionSort _ _).symm)
  rw [List.eq_of_perm_of_sorted hperm
    (List.sorted_insertionSort SpecIVF.pairLe _)
    (List.sorted_insertionSort SpecIVF.pairLe _)]

/-- Witness for C1 at a concrete instance: two clusters, three stored
vectors, full probe. -/
theorem ivf_full_probe_eq_exact_witness :
    ([[(0 : ℚ)], [10]] : List (List ℚ)) ≠ [] ∧
      SpecIVF.ivfSearch SpecIVF.sqDist [[(0 : ℚ)], [10]] 2
          [("a", [1]), ("b", [9]), ("c", [2])] [0] 2 =
        SpecIVF.exactSearch SpecIVF.sqDist [("a", [1]), ("b", [9]), ("c", [2])] [0] 2 :=
  ⟨by decide,
    ivf_full_probe_eq_exact SpecIVF.sqDist [[(0 : ℚ)], [10]]
      [("a", [1]), ("b", [9]), ("c", [2])] [0] 2 (by decide)⟩

section Search1Lemmas

theorem exceptMap_ok {A B : Type} (f : A → B) (a : A) :
    (Except.ok a : Except String A).map f = Except.ok (f a) := rfl

theorem exceptMap_error {A B : Type} (f : A → B) (e : String) :
    (Except.error e : Except String A).map f = Except.error e := rfl

theorem mapExcept_ok_mem {α β : Type} {f : α → Except String β} :
    ∀ {l : List α} {res : List β}, Search1.mapExcept f l = Except.ok res →
      ∀ y ∈ res, ∃ x ∈ l, f x = Except.ok y := by
  intro l
  induction l with
  | nil =>
    intro res h y hy
    simp only [Search1.mapExcept] at h
    cases h
    simp at hy
  | cons a t ih =>
    intro res h y hy
    cases hfa : f a with
    | error e =>
      simp only [Search1.mapExcept, hfa] at h
      exact Except.noConfusion h
    | ok b =>
      cases hft : Search1.mapExcept f t with
      | error e =>
        simp only [Search1.mapExcept, hfa, hft, exceptMap_error] at h
        exact Except.noConfusion h
      | ok ys =>
        simp only [Search1.mapExcept, hfa, hft, exceptMap_ok, Except.ok.injEq] at h
        subst h
        rcases List.mem_cons.mp hy with h1 | h1
        · exact ⟨a, by simp, h1 ▸ hfa⟩
        · obtain ⟨x, hx, hfx⟩ := ih hft y h1
          exact ⟨x, by simp [hx], hfx⟩

theorem mapExcept_ok_length {α β : Type} {f : α → Except String β} :
    ∀ {l : List α} {res : List β}, Search1.mapExcept f l = Except.ok res →
      res.length = l.length := by
  intro l
  induction l with
  | nil =>
    intro res h
    simp only [Search1.mapExcept] at h
    cases h
    rfl
  | cons a t ih =>
    intro res h
    cases hfa : f a with
    | error e =>
      simp only [Search1.mapExcept, hfa] at h
      exact Except.noConfusion h
    | ok b =>
      cases hft : Search1.mapExcept f t with
      | error e =>
        simp only [Search1.mapExcept, hfa, hft, exceptMap_error] at h
        exact Except.noConfusion h
      | ok ys =>
        simp only [Search1.mapExcept, hfa, hft, exceptMap_ok, Except.ok.injEq] at h
        subst h
        simp [ih hft]

theorem mapExcept_tag_fst {A B : Type} (nm : A → String) (g : A → Except String B) :
    ∀ {l : List A} {res : List (String × B)},
      Search1.mapExcept (fun x => (g x).map (fun d => (nm x, d))) l = Except.ok res →
      res.map Prod.fst = l.map nm := by
  intro l
  induction l with
  | nil =>
    intro res h
    simp only [Search1.mapExcept] at h
    cases h
    rfl
  | cons a t ih =>
    intro res h
    cases hga : g a with
    | error e =>
      simp only [Search1.mapExcept, hga, exceptMap_error] at h
      exact Except.noConfusion h
    | ok b =>
      cases hrec : Search1.mapExcept (fun x => (g x).map (fun d => (nm x, d))) t with
      | error e =>
        simp only [Search1.mapExcept, hga, hrec, exceptMap_ok, exceptMap_error] at h
        exact Except.noConfusion h
      | ok ys =>
        simp only [Search1.mapExcept, hga, hrec, exceptMap_ok, Except.ok.injEq] at h
        subst h
        simp [ih hrec]

theorem simList_ok_fst {store : List (String × List ℚ)} {q : List ℚ}
    {sims : List (String × ℝ)} (h : Search1.simList store q = Except.ok sims) :
    sims.map Prod.fst = store.map Prod.fst := by
  have h2 : Search1.mapExcept
      (fun x : String × List ℚ =>
        (Search1.euclidean_distance q x.2).map (fun d => ((fun r : String × List ℚ => r.1) x, d)))
      store = Except.ok sims := h
  exact mapExcept_tag_fst (fun r : String × List ℚ => r.1)
    (fun r : String × List ℚ => Search1.euclidean_distance q r.2) h2

theorem simList_ok_length {store : List (String × List ℚ)} {q : List ℚ}
    {sims : List (String × ℝ)} (h : Search1.simList store q = Except.ok sims) :
    sims.length = store.length :=
  mapExcept_ok_length h

theorem pySlice_eq_take {A : Type} (l : List A) (c : ℤ) :
    Search1.pySlice l c =
      l.take (if 0 ≤ c then c.toNat else l.length - (-c).toNat) := by
  unfold Search1.pySlice
  by_cases h : 0 ≤ c <;> simp [h]

theorem search_similar_ok_mem {store : List (String × List ℚ)}
    {inputs : List (List ℚ)} {count : ℤ} {res : List (ℕ × List (String × ℝ))}
    (h : Search1.search_similar store inputs count = Except.ok res) :
    ∀ pr ∈ res, ∃ q sims, (pr.1, q) ∈ inputs.enum ∧
      Search1.simList store q = Except.ok sims ∧
      pr.2 = Search1.pySlice (List.insertionSort Search1.distLe sims) count := by
  intro pr hpr
  by_cases hs : store = []
  · rw [Search1.search_similar, if_pos hs] at h
    cases h
    simp at hpr
  · rw [Search1.search_similar, if_neg hs] at h
    obtain ⟨x, hx, hfx⟩ := mapExcept_ok_mem h pr hpr
    cases hsim : Search1.simList store x.2 with
    | error e =>
      rw [hsim] at hfx
      simp only [exceptMap_error] at hfx
      exact Except.noConfusion hfx
    | ok sims =>
      rw [hsim] at hfx
      simp only [exceptMap_ok, Except.ok.injEq] at hfx
      subst hfx
      exact ⟨x.2, sims, by simpa using hx, hsim, rfl⟩

theorem search_similar_ok_length {store : List (String × List ℚ)}
    {inputs : List (List ℚ)} {count : ℤ} {res : List (ℕ × List (String × ℝ))}
    (hs : store ≠ []) (h : Search1.search_similar store inputs count = Except.ok res) :
    res.length = inputs.length := by
  rw [Search1.search_similar, if_neg hs] at h
  exact (mapExcept_ok_length h).trans List.enum_length

theorem filter_orderedInsert_eq (d : ℝ) (x : String × ℝ) :
    ∀ L : List (String × ℝ),
      (List.orderedInsert Search1.distLe x L).filter (fun s => s.2 = d) =
        if x.2 = d then x :: L.filter (fun s => s.2 = d)
        else L.filter (fun s => s.2 = d)
  | [] => by
    by_cases hx : x.2 = d
    · simp [List.filter_cons, hx]
    · simp [List.filter_cons, hx]
  | y :: L => by
    rw [List.orderedInsert]
    by_cases hle : Search1.distLe x y
    · rw [if_pos hle]
      by_cases hx : x.2 = d <;> simp [List.filter_cons, hx]
    · rw [if_neg hle]
      by_cases hy : y.2 = d
      · have hx : ¬x.2 = d := by
          intro hx
          exact hle (show x.2 ≤ y.2 by rw [hx, hy])
        simp [List.filter_cons, hy, filter_orderedInsert_eq d x L, hx]
      · by_cases hx : x.2 = d <;>
          simp [List.filter_cons, hy, filter_orderedInsert_eq d x L, hx]

theorem filter_insertionSort_eq (d : ℝ) :
    ∀ l : List (String × ℝ),
      (List.insertionSort Search1.distLe l).filter (fun s => s.2 = d) =
        l.filter (fun s => s.2 = d)
  | [] => rfl
  | x :: l => by
    rw [List.insertionSort, filter_orderedInsert_eq, filter_insertionSort_eq d l]
    by_cases hx : x.2 = d <;> simp [List.filter_cons, hx]

end Search1Lemmas

section EvalHelpers

theorem euclid_eval_1_0 : Search1.euclidean_distance [1] [0] = Except.ok 1 := by
  rw [Search1.euclidean_distance, show Np.sub [1] [0] = Except.ok [1] by unfold Np.sub; norm_num,
    exceptMap_ok]
  norm_num [Np.sumSq, Real.sqrt_one]

theorem euclid_eval_0_0 : Search1.euclidean_distance [0] [0] = Except.ok 0 := by
  rw [Search1.euclidean_distance, show Np.sub [0] [0] = Except.ok [0] by unfold Np.sub; norm_num,
    exceptMap_ok]
  norm_num [Np.sumSq, Real.sqrt_zero]

theorem euclid_eval_0_1 : Search1.euclidean_distance [0] [1] = Except.ok 1 := by
  rw [Search1.euclidean_distance, show Np.sub [0] [1] = Except.ok [-1] by unfold Np.sub; norm_num,
    exceptMap_ok]
  norm_num [Np.sumSq, Real.sqrt_one]

theorem simList_eval_tie :
    Search1.simList [("b", [0]), ("a", [0])] [1] =
      Except.ok [("b", (1 : ℝ)), ("a", 1)] := by
  rw [Search1.simList]
  simp only [Search1.mapExcept, euclid_eval_1_0, exceptMap_ok]

theorem sort_eval_tie :
    List.insertionSort Search1.distLe [("b", (1 : ℝ)), ("a", 1)] =
      [("b", 1), ("a", 1)] := by
  simp only [List.insertionSort, List.orderedInsert]
  rw [if_pos (show Search1.distLe ("b", (1 : ℝ)) ("a", 1) from le_refl 1)]

theorem search_eval_tie :
    Search1.search_similar [("b", [0]), ("a", [0])] [[1]] 2 =
      Except.ok [(0, [("b", (1 : ℝ)), ("a", 1)])] := by
  rw [Search1.search_similar, if_neg (by decide),
    show ([[1]] : List (List ℚ)).enum = [(0, [1])] from rfl]
  simp only [Search1.mapExcept, simList_eval_tie, exceptMap_ok, sort_eval_tie]
  norm_num [Search1.pySlice]

theorem simList_eval_two :
    Search1.simList [("a", [0]), ("b", [1])] [0] =
      Except.ok [("a", (0 : ℝ)), ("b", 1)] := by
  rw [Search1.simList]
  simp only [Search1.mapExcept, euclid_eval_0_0, euclid_eval_0_1, exceptMap_ok]

theorem sort_eval_two :
    List.insertionSort Search1.distLe [("a", (0 : ℝ)), ("b", 1)] =
      [("a", 0), ("b", 1)] := by
  simp only [List.insertionSort, List.orderedInsert]
  rw [if_pos (show Search1.distLe ("a", (0 : ℝ)) ("b", 1) by norm_num [Search1.distLe])]

theorem search_eval_two (count : ℤ) :
    Search1.search_similar [("a", [0]), ("b", [1])] [[0]] count =
      Except.ok [(0, Search1.pySlice [("a", (0 : ℝ)), ("b", 1)] count)] := by
  rw [Search1.search_similar, if_neg (by decide),
    show ([[0]] : List (List ℚ)).enum = [(0, [0])] from rfl]
  simp only [Search1.mapExcept, simList_eval_two, exceptMap_ok, sort_eval_two]

end EvalHelpers

/-- C2 is false as stated: with the store enumerating `"b"` before `"a"` (two
identical stored vectors), the two returned entries have exactly equal
distance `1`, yet the lexicographically larger identifier `"b"` comes first —
Python's `sorted` keyed on distance is stable and never consults
identifiers. -/
theorem search1_tie_not_by_id_counterexample :
    Search1.search_similar [("b", [0]), ("a", [0])] [[1]] 2 =
        Except.ok [(0, [("b", (1 : ℝ)), ("a", 1)])] ∧
      ("a" : String) < "b" := by
  refine ⟨search_eval_tie, ?_⟩
  rw [String.lt_iff_toList_lt]
  decide

/-- C2 (amended): every per-query result list of `search_1.py`'s
`search_similar` is sorted by non-decreasing distance, but entries with
exactly equal distance keep the stable-sort order inherited from the store's
enumeration order (the similarity list `sims` lists the store's identifiers
in store order, and sorting does not reorder any equal-distance class),
rather than being reordered by ascending identifier. -/
theorem search1_sorted_ties_stable {store : List (String × List ℚ)}
    {inputs : List (List ℚ)} {count : ℤ} {res : List (ℕ × List (String × ℝ))}
    (h : Search1.search_similar store inputs count = Except.ok res) :
    ∀ pr ∈ res, pr.2.Sorted Search1.distLe ∧
      ∃ q sims, (pr.1, q) ∈ inputs.enum ∧
        Search1.simList store q = Except.ok sims ∧
        sims.map Prod.fst = store.map Prod.fst ∧
        pr.2 = Search1.pySlice (List.insertionSort Search1.distLe sims) count ∧
        ∀ d : ℝ, (List.insertionSort Search1.distLe sims).filter (fun s => s.2 = d) =
          sims.filter (fun s => s.2 = d) := by
  intro pr hpr
  obtain ⟨q, sims, hq, hsim, hpr2⟩ := search_similar_ok_mem h pr hpr
  refine ⟨?_, q, sims, hq, hsim, simList_ok_fst hsim, hpr2,
    fun d => filter_insertionSort_eq d sims⟩
  rw [hpr2, pySlice_eq_take]
  exact (List.sorted_insertionSort _ _).sublist (List.take_sublist _ _)

/-- Witness for the amended C2 at a concrete tie instance. -/
theorem search1_sorted_ties_stable_witness :
    Search1.search_similar [("b", [0]), ("a", [0])] [[1]] 2 =
        Except.ok [(0, [("b", (1 : ℝ)), ("a", 1)])] ∧
      ([("b", (1 : ℝ)), ("a", 1)] : List (String × ℝ)).Sorted Search1.distLe :=
  ⟨search_eval_tie,
    ((search1_sorted_ties_stable search_eval_tie
        (0, [("b", (1 : ℝ)), ("a", 1)]) (by simp)).1)⟩

theorem search_eval_two_5 :
    Search1.search_similar [("a", [0]), ("b", [1])] [[0]] 5 =
      Except.ok [(0, [("a", (0 : ℝ)), ("b", 1)])] := by
  rw [search_eval_two 5]
  norm_num [Search1.pySlice]

theorem search_eval_two_neg1 :
    Search1.search_similar [("a", [0]), ("b", [1])] [[0]] (-1) =
      Except.ok [(0, [("a", (0 : ℝ))])] := by
  rw [search_eval_two (-1)]
  norm_num [Search1.pySlice]

/-- C3: when the requested `count` exceeds the size of a non-empty store,
`search_1.py`'s searcher returns, for every query, all stored records ranked:
one result per query, each of length equal to the store size, containing
exactly the stored identifiers, sorted by non-decreasing distance. -/
theorem search1_k_exceeds_returns_all {store : List (String × List ℚ)}
    {inputs : List (List ℚ)} {count : ℤ} {res : List (ℕ × List (String × ℝ))}
    (hs : store ≠ []) (hk : (store.length : ℤ) < count)
    (h : Search1.search_similar store inputs count = Except.ok res) :
    res.length = inputs.length ∧
      ∀ pr ∈ res, pr.2.length = store.length ∧
        (pr.2.map Prod.fst).Perm (store.map Prod.fst) ∧
        pr.2.Sorted Search1.distLe := by
  refine ⟨search_similar_ok_length hs h, ?_⟩
  intro pr hpr
  obtain ⟨q, sims, hq, hsim, hpr2⟩ := search_similar_ok_mem h pr hpr
  have hslen : sims.length = store.length := simList_ok_length hsim
  have hsortlen : (List.insertionSort Search1.distLe sims).length = sims.length :=
    (List.perm_insertionSort _ _).length_eq
  have htake : Search1.pySlice (List.insertionSort Search1.distLe sims) count =
      List.insertionSort Search1.distLe sims := by
    rw [pySlice_eq_take, if_pos (by omega : (0 : ℤ) ≤ count)]
    apply List.take_of_length_le
    rw [hsortlen, hslen]
    omega
  rw [hpr2, htake]
  refine ⟨hsortlen.trans hslen, ?_, List.sorted_insertionSort _ _⟩
  exact simList_ok_fst hsim ▸ ((List.perm_insertionSort _ _).map Prod.fst)

/-- Witness for C3: two stored vectors, `count = 5`. -/
theorem search1_k_exceeds_returns_all_witness :
    ([("a", [(0 : ℚ)]), ("b", [1])] : List (String × List ℚ)) ≠ [] ∧
      ((([("a", [(0 : ℚ)]), ("b", [1])] : List (String × List ℚ)).length : ℤ) < 5) ∧
      ([(0, [("a", (0 : ℝ)), ("b", 1)])] : List (ℕ × List (String × ℝ))).length =
          ([[(0 : ℚ)]] : List (List ℚ)).length ∧
      ∀ pr ∈ ([(0, [("a", (0 : ℝ)), ("b", 1)])] : List (ℕ × List (String × ℝ))),
        pr.2.length = ([("a", [(0 : ℚ)]), ("b", [1])] : List (String × List ℚ)).length ∧
        (pr.2.map Prod.fst).Perm
          (([("a", [(0 : ℚ)]), ("b", [1])] : List (String × List ℚ)).map Prod.fst) ∧
        pr.2.Sorted Search1.distLe :=
  ⟨by decide, by decide,
    (search1_k_exceeds_returns_all (by decide) (by decide) search_eval_two_5).1,
    (search1_k_exceeds_returns_all (by decide) (by decide) search_eval_two_5).2⟩

/-- C4 is false as stated: `search_1.py` returns an empty result mapping for
an empty store — not one empty `SearchResult` per query — and the FAISS-based
searcher of `search_2.py` raises `ValueError("Vector index is empty.")`
instead of succeeding. -/
theorem empty_store_counterexample :
    Search1.search_similar [] [[0]] 5 = Except.ok [] ∧
      (Except.ok [] : Except String (List (ℕ × List (String × ℝ)))) ≠
        Except.ok [(0, ([] : List (String × ℝ)))] ∧
      Search2.init [] = Except.error "Vector index is empty." := by
  refine ⟨?_, by simp, rfl⟩
  rw [Search1.search_similar, if_pos rfl]

/-- C4 (amended): on an empty store, `search_1.py`'s searcher succeeds with
an empty overall result (no per-query entries at all, rather than one empty
result per query), while the FAISS searcher of `search_2.py` fails at
construction with `ValueError("Vector index is empty.")`. -/
theorem empty_store_behavior (inputs : List (List ℚ)) (count : ℤ) :
    Search1.search_similar [] inputs count = Except.ok [] ∧
      Search2.init [] = Except.error "Vector index is empty." := by
  refine ⟨?_, rfl⟩
  rw [Search1.search_similar, if_pos rfl]

theorem euclid_eval_broadcast :
    Search1.euclidean_distance [1] [1, 1] = Except.ok 0 := by
  rw [Search1.euclidean_distance,
    show Np.sub [1] [1, 1] = Except.ok [0, 0] by unfold Np.sub; norm_num,
    exceptMap_ok]
  norm_num [Np.sumSq, Real.sqrt_zero]

theorem simList_eval_bc :
    Search1.simList [("a", [1, 1])] [1] = Except.ok [("a", (0 : ℝ))] := by
  rw [Search1.simList]
  simp only [Search1.mapExcept, euclid_eval_broadcast, exceptMap_ok]

theorem search_eval_bc :
    Search1.search_similar [("a", [1, 1])] [[1]] 1 =
      Except.ok [(0, [("a", (0 : ℝ))])] := by
  rw [Search1.search_similar, if_neg (by decide),
    show ([[1]] : List (List ℚ)).enum = [(0, [1])] from rfl]
  simp only [Search1.mapExcept, simList_eval_bc, exceptMap_ok,
    List.insertionSort, List.orderedInsert]
  norm_num [Search1.pySlice]

/-- C5 is false as stated: a length-1 query against a dimension-2 store is
silently broadcast by numpy (the search succeeds and returns a distance),
and when broadcasting is impossible the failure is numpy's untyped broadcast
ValueError, not a typed DimensionMismatch. -/
theorem dim_mismatch_counterexample :
    Search1.search_similar [("a", [1, 1])] [[1]] 1 =
        Except.ok [(0, [("a", (0 : ℝ))])] ∧
      Search1.euclidean_distance [1, 2] [1, 2, 3] =
        Except.error "operands could not be broadcast together" :=
  ⟨search_eval_bc, rfl⟩

/-- C5 (amended): when the query length differs from the stored dimension,
the distance computation of `search_1.py` does not fail with a typed
DimensionMismatch: if either operand has length 1 numpy broadcasting silently
computes a distance, and only otherwise does the operation fail, with
numpy's untyped broadcast error. -/
theorem dim_mismatch_behavior (a b : List ℚ) (hne : a.length ≠ b.length) :
    (a.length = 1 → Search1.euclidean_distance a b =
        Except.ok (Real.sqrt ((Np.sumSq (b.map (fun y => a.headD 0 - y)) : ℚ) : ℝ))) ∧
      (a.length ≠ 1 → b.length = 1 → Search1.euclidean_distance a b =
        Except.ok (Real.sqrt ((Np.sumSq (a.map (fun x => x - b.headD 0)) : ℚ) : ℝ))) ∧
      (a.length ≠ 1 → b.length ≠ 1 → Search1.euclidean_distance a b =
        Except.error "operands could not be broadcast together") := by
  refine ⟨?_, ?_, ?_⟩
  · intro ha1
    rw [Search1.euclidean_distance, Np.sub, if_neg hne, if_pos ha1, exceptMap_ok]
  · intro ha1 hb1
    rw [Search1.euclidean_distance, Np.sub, if_neg hne, if_neg ha1, if_pos hb1,
      exceptMap_ok]
  · intro ha1 hb1
    rw [Search1.euclidean_distance, Np.sub, if_neg hne, if_neg ha1, if_neg hb1,
      exceptMap_error]

/-- Witness for the amended C5: a length-1 query broadcast against a
dimension-2 stored vector. -/
theorem dim_mismatch_behavior_witness :
    ([(1 : ℚ)] : List ℚ).length ≠ ([1, 1] : List ℚ).length ∧
      Search1.euclidean_distance [1] [1, 1] =
        Except.ok (Real.sqrt ((Np.sumSq (([1, 1] : List ℚ).map
          (fun y => ([(1 : ℚ)] : List ℚ).headD 0 - y)) : ℚ) : ℝ)) :=
  ⟨by decide, (dim_mismatch_behavior [1] [1, 1] (by decide)).1 rfl⟩

/-- C6 is false as stated: a negative `count` is not rejected with a typed
InvalidParameter error; Python slice semantics silently drop `|count|`
elements from the end of the ranked list, returning a truncated result. -/
theorem negative_count_counterexample :
    Search1.search_similar [("a", [0]), ("b", [1])] [[0]] (-1) =
      Except.ok [(0, [("a", (0 : ℝ))])] :=
  search_eval_two_neg1

/-- C6 (amended): a negative `count` produces no error: every per-query
result is the ranked list with the last `|count|` entries dropped (so its
length is the store size minus `|count|`, truncated at zero). -/
theorem search1_negative_count_truncates {store : List (String × List ℚ)}
    {inputs : List (List ℚ)} {count : ℤ} {res : List (ℕ × List (String × ℝ))}
    (hc : count < 0) (h : Search1.search_similar store inputs count = Except.ok res) :
    ∀ pr ∈ res, pr.2.length = store.length - (-count).toNat := by
  intro pr hpr
  obtain ⟨q, sims, hq, hsim, hpr2⟩ := search_similar_ok_mem h pr hpr
  have hlen : (List.insertionSort Search1.distLe sims).length = store.length :=
    (List.perm_insertionSort _ _).length_eq.trans (simList_ok_length hsim)
  rw [hpr2, pySlice_eq_take, if_neg (not_le.mpr hc), List.length_take, hlen]
  omega

/-- Witness for the amended C6: store of size 2, `count = -1`, result of
length 1. -/
theorem search1_negative_count_truncates_witness :
    ((-1 : ℤ) < 0) ∧
      ∀ pr ∈ ([(0, [("a", (0 : ℝ))])] : List (ℕ × List (String × ℝ))),
        pr.2.length =
          ([("a", [(0 : ℚ)]), ("b", [1])] : List (String × List ℚ)).length -
            (-(-1) : ℤ).toNat :=
  ⟨by decide, search1_negative_count_truncates (by decide) search_eval_two_neg1⟩

theorem sumSq_zipWith_sub :
    ∀ (a b : List ℚ), a.length = b.length →
      Np.sumSq (List.zipWith (fun x y => x - y) a b) =
        ∑ i in Finset.range a.length, (a.getD i 0 - b.getD i 0) ^ 2
  | [], [], _ => by simp [Np.sumSq]
  | [], y :: t, h => by simp at h
  | x :: s, [], h => by simp at h
  | x :: s, y :: t, h => by
    have hlen : s.length = t.length := by simpa using h
    simp only [List.zipWith_cons_cons]
    rw [show Np.sumSq ((x - y) :: List.zipWith (fun x y => x - y) s t) =
        (x - y) * (x - y) + Np.sumSq (List.zipWith (fun x y => x - y) s t) from by
          simp [Np.sumSq]]
    rw [sumSq_zipWith_sub s t hlen, List.length_cons, Finset.sum_range_succ']
    simp only [List.getD_cons_succ, List.getD_cons_zero]
    ring

/-- C7: on equal-length vectors, `search_1.py`'s Euclidean metric is exactly
the square root of the sum over all coordinates of the squared componentwise
differences. -/
theorem euclid_eq_sqrt_sum_squares (a b : List ℚ) (hlen : a.length = b.length) :
    Search1.euclidean_distance a b =
      Except.ok (Real.sqrt ((∑ i in Finset.range a.length,
        (a.getD i 0 - b.getD i 0) ^ 2 : ℚ) : ℝ)) := by
  rw [Search1.euclidean_distance, Np.sub, if_pos hlen, exceptMap_ok,
    sumSq_zipWith_sub a b hlen]

/-- Witness for C7 on the pair `[1, 2]`, `[3, 5]`. -/
theorem euclid_eq_sqrt_sum_squares_witness :
    ([(1 : ℚ), 2] : List ℚ).length = ([3, 5] : List ℚ).length ∧
      Search1.euclidean_distance [1, 2] [3, 5] =
        Except.ok (Real.sqrt ((∑ i in Finset.range ([(1 : ℚ), 2] : List ℚ).length,
          (([(1 : ℚ), 2] : List ℚ).getD i 0 - ([3, 5] : List ℚ).getD i 0) ^ 2 : ℚ) : ℝ)) :=
  ⟨by decide, euclid_eq_sqrt_sum_squares [1, 2] [3, 5] (by decide)⟩

section GenerationLemmas

theorem pickFresh_fresh {uuids : ℕ → String} (hinj : Function.Injective uuids)
    (used : List String) (s : ℕ) :
    uuids (Generation.pickFresh uuids used s) ∉ used := by
  have hex : ∃ m ∈ List.range (used.length + 1),
      (fun m => decide (uuids (s + m) ∉ used)) m = true := by
    by_contra hall
    push_neg at hall
    have hmem : ∀ m ∈ List.range (used.length + 1), uuids (s + m) ∈ used := by
      intro m hm
      have := hall m hm
      simpa using this
    have hnd : ((List.range (used.length + 1)).map (fun m => uuids (s + m))).Nodup := by
      refine List.Nodup.map ?_ (List.nodup_range _)
      intro m1 m2 hmm
      exact Nat.add_left_cancel (hinj hmm)
    have hsub : ((List.range (used.length + 1)).map
        (fun m => uuids (s + m))).toFinset ⊆ used.toFinset := by
      intro x hx
      rw [List.mem_toFinset] at hx ⊢
      obtain ⟨m, hm, rfl⟩ := List.mem_map.mp hx
      exact hmem m hm
    have h1 : ((List.range (used.length + 1)).map
        (fun m => uuids (s + m))).toFinset.card = used.length + 1 := by
      rw [List.toFinset_card_of_nodup hnd]
      simp
    have h2 : used.toFinset.card ≤ used.length := List.toFinset_card_le used
    have h3 := Finset.card_le_card hsub
    omega
  rw [Generation.pickFresh]
  cases hfind : (List.range (used.length + 1)).find?
      (fun m => decide (uuids (s + m) ∉ used)) with
  | none =>
    exfalso
    have hsome := List.find?_isSome.mpr hex
    rw [hfind] at hsome
    simp at hsome
  | some m =>
    have := List.find?_some hfind
    simpa using this

theorem generateAux_length (uuids : ℕ → String) (rand : ℕ → ℚ) (low high : ℚ)
    (size : ℕ) :
    ∀ (c s : ℕ) (used : List String),
      (Generation.generateAux uuids rand low high size c s used).length = c
  | 0, _, _ => rfl
  | Nat.succ c, s, used => by
    rw [Generation.generateAux]
    simp [generateAux_length uuids rand low high size c]

theorem generateAux_vector_length (uuids : ℕ → String) (rand : ℕ → ℚ)
    (low high : ℚ) (size : ℕ) :
    ∀ (c s : ℕ) (used : List String),
      ∀ e ∈ Generation.generateAux uuids rand low high size c s used,
        e.vector.length = size
  | 0, _, _ => by
    intro e he
    simp [Generation.generateAux] at he
  | Nat.succ c, s, used => by
    intro e he
    rw [Generation.generateAux] at he
    rcases List.mem_cons.mp he with h1 | h1
    · subst h1
      simp [Generation.npUniform]
    · exact generateAux_vector_length uuids rand low high size c _ _ e h1

theorem generateAux_ids_fresh {uuids : ℕ → String} (hinj : Function.Injective uuids)
    (rand : ℕ → ℚ) (low high : ℚ) (size : ℕ) :
    ∀ (c s : ℕ) (used : List String),
      ((Generation.generateAux uuids rand low high size c s used).map
          Generation.Element.id).Nodup ∧
        ∀ x ∈ (Generation.generateAux uuids rand low high size c s used).map
            Generation.Element.id, x ∉ used
  | 0, s, used => by
    constructor
    · simp [Generation.generateAux]
    · intro x hx
      simp [Generation.generateAux] at hx
  | Nat.succ c, s, used => by
    obtain ⟨ihnd, ihfresh⟩ := generateAux_ids_fresh hinj rand low high size c
      (Generation.pickFresh uuids used s + 1)
      (uuids (Generation.pickFresh uuids used s) :: used)
    rw [Generation.generateAux]
    constructor
    · rw [List.map_cons, List.nodup_cons]
      refine ⟨fun hmem => ?_, ihnd⟩
      exact (ihfresh _ hmem) (by simp)
    · intro x hx
      rw [List.map_cons] at hx
      rcases List.mem_cons.mp hx with h1 | h1
      · subst h1
        exact pickFresh_fresh hinj used s
      · intro hxu
        exact (ihfresh x h1) (by simp [hxu])

end GenerationLemmas

/-- C10: for every bound pair, dimension and count (randomness supplied as
oracle streams, the uuid stream collision-free as uuid4 is in practice),
`generation.py`'s generator returns exactly `count` elements, every generated
vector has length `size`, and the generated identifiers are pairwise
distinct. -/
theorem generate_count_dim_nodup (uuids : ℕ → String) (rand : ℕ → ℚ)
    (low high : ℚ) (size count : ℕ) (hinj : Function.Injective uuids) :
    (Generation.generate uuids rand low high size count).length = count ∧
      (∀ e ∈ Generation.generate uuids rand low high size count,
        e.vector.length = size) ∧
      ((Generation.generate uuids rand low high size count).map
        Generation.Element.id).Nodup :=
  ⟨generateAux_length uuids rand low high size count 0 [],
    generateAux_vector_length uuids rand low high size count 0 [],
    (generateAux_ids_fresh hinj rand low high size count 0 []).1⟩

/-- Witness for C10: an injective uuid stream, two elements of dimension 3. -/
theorem generate_count_dim_nodup_witness :
    Function.Injective (fun n => String.mk (List.replicate n 'a')) ∧
      (Generation.generate (fun n => String.mk (List.replicate n 'a'))
          (fun _ => 0) 0 1 3 2).length = 2 ∧
      (∀ e ∈ Generation.generate (fun n => String.mk (List.replicate n 'a'))
          (fun _ => 0) 0 1 3 2, e.vector.length = 3) ∧
      ((Generation.generate (fun n => String.mk (List.replicate n 'a'))
          (fun _ => 0) 0 1 3 2).map Generation.Element.id).Nodup := by
  have hinj : Function.Injective (fun n => String.mk (List.replicate n 'a')) := by
    intro n1 n2 h
    have hdata : List.replicate n1 'a' = List.replicate n2 'a' :=
      congrArg String.data h
    have := congrArg List.length hdata
    simpa using this
  exact ⟨hinj,
    (generate_count_dim_nodup _ (fun _ => 0) 0 1 3 2 hinj).1,
    (generate_count_dim_nodup _ (fun _ => 0) 0 1 3 2 hinj).2.1,
    (generate_count_dim_nodup _ (fun _ => 0) 0 1 3 2 hinj).2.2⟩

theorem list_sum_map_range (n : ℕ) (f : ℕ → ℚ) :
    ((List.range n).map f).sum = ∑ i in Finset.range n, f i := by
  induction n with
  | zero => simp
  | succ m ih =>
    rw [List.range_succ, List.map_append, List.sum_append, Finset.sum_range_succ, ih]
    simp

/-- C9: for every number of repetitions `n ≥ 1`, the per-strategy statistics
reported by `test.py` are the arithmetic means (sum divided by `n`) of the
`n` per-run time and memory samples, and the per-run sample lists themselves
are retained with exactly the measured values. -/
theorem bench_mean_and_samples (measure : ℕ → ℚ × ℚ) (n : ℕ) (hn : 1 ≤ n) :
    (Bench.runSamples measure n).1.length = n ∧
      (Bench.runSamples measure n).2.length = n ∧
      (∀ i, i < n → (Bench.runSamples measure n).1.getD i 0 = (measure i).1 ∧
        (Bench.runSamples measure n).2.getD i 0 = (measure i).2) ∧
      Bench.average (Bench.runSamples measure n).1 =
        (∑ i in Finset.range n, (measure i).1) / n ∧
      Bench.average (Bench.runSamples measure n).2 =
        (∑ i in Finset.range n, (measure i).2) / n := by
  refine ⟨by simp [Bench.runSamples], by simp [Bench.runSamples], ?_, ?_, ?_⟩
  · intro i hi
    constructor
    · rw [Bench.runSamples, List.getD_eq_getElem?_getD]
      simp [List.getElem?_map, List.getElem?_range hi]
    · rw [Bench.runSamples, List.getD_eq_getElem?_getD]
      simp [List.getElem?_map, List.getElem?_range hi]
  · rw [Bench.average, Bench.runSamples]
    rw [list_sum_map_range n (fun i => (measure i).1)]
    simp
  · rw [Bench.average, Bench.runSamples]
    rw [list_sum_map_range n (fun i => (measure i).2)]
    simp

/-- Witness for C9 with two runs. -/
theorem bench_mean_and_samples_witness :
    (1 : ℕ) ≤ 2 ∧
      (Bench.runSamples (fun i => ((i : ℚ) + 1, 2 * (i : ℚ))) 2).1.length = 2 ∧
      Bench.average (Bench.runSamples (fun i => ((i : ℚ) + 1, 2 * (i : ℚ))) 2).1 =
        (∑ i in Finset.range 2, ((i : ℚ) + 1)) / 2 :=
  ⟨by decide,
    (bench_mean_and_samples (fun i => ((i : ℚ) + 1, 2 * (i : ℚ))) 2 (by decide)).1,
    (bench_mean_and_samples (fun i => ((i : ℚ) + 1, 2 * (i : ℚ))) 2 (by decide)).2.2.2.1⟩
